import Mathlib

set_option maxRecDepth 8192

/-!
Shallow embedding of the session-management core of the Kenya advisory
services chat front-end.

The embedded code is:
  * `src/frontend/src/ChatManager.jsx` — the `ChatProvider` session store
    (`createNewSession`, `getCurrentSession`, `updateSession`,
    `generateSessionTitle`, `switchToSession`, `deleteSession`,
    `getSessions`);
  * `src/frontend/src/legalBot.jsx` and the agriculture bot component —
    the per-category adapters (`sendMessage`, `handleSubmit`).

JavaScript `Date` values are modelled as natural-number timestamps; the
asynchronous backend call is modelled by passing its outcome (a response
string or a failure) as an explicit argument.  React state updates are
modelled as explicit state passing.  JavaScript `Array.prototype.sort` is
a stable sort and is modelled with `List.mergeSort`; note that it mutates
the array in place, which the embedding reflects by having `getSessions`
return an updated store.
-/

/-- A chat turn: the JS code stores either `{ user: {content}, ... }` or
`{ system: {content}, ... }`, a tagged variant distinguished by which key
is present, each carrying a content string and a timestamp. -/
inductive Turn where
  | user (content : String) (timestamp : Nat)
  | system (content : String) (timestamp : Nat)
deriving Repr, DecidableEq

/-- Whether the turn is a user turn (the JS test `'user' in msg`). -/
def Turn.isUser : Turn → Bool
  | .user _ _ => true
  | .system _ _ => false

/-- Whether the turn is a system turn (the JS test `'system' in msg`). -/
def Turn.isSystem : Turn → Bool
  | .user _ _ => false
  | .system _ _ => true

/-- The content string carried by a turn. -/
def Turn.content : Turn → String
  | .user c _ => c
  | .system c _ => c

/-- One chat session, as built by `createNewSession` in ChatManager.jsx. -/
structure Session where
  id : String
  title : String
  messages : List Turn
  createdAt : Nat
  updatedAt : Nat
deriving Repr, DecidableEq

/-- The two bot categories: `'agri'` and `'legal'`. -/
inductive BotType where
  | agri
  | legal
deriving Repr, DecidableEq

/-- The `ChatProvider` state: `chatSessions` maps each category to an
ordered array of sessions, `currentSessionId` maps each category to the
current session id or `null`. -/
structure ChatState where
  agriSessions : List Session
  legalSessions : List Session
  agriCurrent : Option String
  legalCurrent : Option String
deriving Repr, DecidableEq

/-- Read accessor for `chatSessions[botType]`. -/
def ChatState.sessions (st : ChatState) : BotType → List Session
  | .agri => st.agriSessions
  | .legal => st.legalSessions

/-- Read accessor for `currentSessionId[botType]`. -/
def ChatState.currentId (st : ChatState) : BotType → Option String
  | .agri => st.agriCurrent
  | .legal => st.legalCurrent

/-- The update `setChatSessions(prev => ({...prev, [botType]: l}))`. -/
def ChatState.setSessions (st : ChatState) : BotType → List Session → ChatState
  | .agri, l => { st with agriSessions := l }
  | .legal, l => { st with legalSessions := l }

/-- The update `setCurrentSessionId(prev => ({...prev, [botType]: c}))`. -/
def ChatState.setCurrent (st : ChatState) : BotType → Option String → ChatState
  | .agri, c => { st with agriCurrent := c }
  | .legal, c => { st with legalCurrent := c }

/-- The initial provider state: both collections empty, both pointers null. -/
def initChatState : ChatState :=
  { agriSessions := [], legalSessions := [], agriCurrent := none, legalCurrent := none }

/-- The category-specific greeting seeded into a fresh session
(ChatManager.jsx lines 38-40). -/
def greeting : BotType → String
  | .agri => "Hello! I\x27m your Kenyan Agriculture Advisor. Ask about crops, diseases, weather, or market prices."
  | .legal => "Hello! I\x27m your Kenyan Legal Advisor. I can help with legal questions specific to Kenyan law."

/-- `createNewSession(botType)` (ChatManager.jsx lines 30-60): builds a new
session titled `Chat N`, whose sole message is the category greeting,
appends it to the category collection, makes it current, and returns its
id.  The generated unique id and the clock reading are explicit
arguments. -/
def createNewSession (st : ChatState) (botType : BotType) (freshId : String) (now : Nat) :
    ChatState × String :=
  let newSession : Session :=
    { id := freshId
      title := "Chat " ++ toString ((st.sessions botType).length + 1)
      messages := [Turn.system (greeting botType) now]
      createdAt := now
      updatedAt := now }
  let st1 := st.setSessions botType (st.sessions botType ++ [newSession])
  let st2 := st1.setCurrent botType (some freshId)
  (st2, freshId)

/-- `getCurrentSession(botType)` (ChatManager.jsx lines 63-67). -/
def getCurrentSession (st : ChatState) (botType : BotType) : Option Session :=
  match st.currentId botType with
  | none => none
  | some sessionId => (st.sessions botType).find? (fun s => s.id == sessionId)

/-- `generateSessionTitle(messages)` (ChatManager.jsx lines 87-94): the
first user message's content, truncated to 30 characters plus "..." when
longer than 30, else the content; "New Chat" when no user message. -/
def generateSessionTitle (messages : List Turn) : String :=
  match messages.find? (fun msg => msg.isUser) with
  | some firstUserMessage =>
      let content := firstUserMessage.content
      if content.length > 30 then (content.take 30) ++ "..." else content
  | none => "New Chat"

/-- `updateSession(botType, sessionId, newMessages)` (ChatManager.jsx
lines 70-84): maps over the category collection, replacing the matching
session's messages wholesale, stamping `updatedAt`, and recomputing the
title; non-matching sessions are returned unchanged. -/
def updateSession (st : ChatState) (botType : BotType) (sessionId : String)
    (newMessages : List Turn) (now : Nat) : ChatState :=
  st.setSessions botType ((st.sessions botType).map (fun s =>
    if s.id == sessionId then
      { s with messages := newMessages, updatedAt := now,
               title := generateSessionTitle newMessages }
    else s))

/-- `switchToSession(botType, sessionId)` (ChatManager.jsx lines 97-102). -/
def switchToSession (st : ChatState) (botType : BotType) (sessionId : String) : ChatState :=
  st.setCurrent botType (some sessionId)

/-- `deleteSession(botType, sessionId)` (ChatManager.jsx lines 105-126):
filters the session out of the collection; if it was current, the new
current id is taken from the last element of the remaining sessions
(computed from the pre-deletion snapshot), or null if none remain. -/
def deleteSession (st : ChatState) (botType : BotType) (sessionId : String) : ChatState :=
  let st1 := st.setSessions botType ((st.sessions botType).filter (fun s => s.id != sessionId))
  if st.currentId botType == some sessionId then
    let remainingSessions := (st.sessions botType).filter (fun s => s.id != sessionId)
    match remainingSessions.getLast? with
    | some last => st1.setCurrent botType (some last.id)
    | none => st1.setCurrent botType none
  else st1

/-- The comparator `(a, b) => new Date(b.updatedAt) - new Date(a.updatedAt)`
read as a boolean "a may come before b" relation: descending `updatedAt`. -/
def sessionBefore (a b : Session) : Bool := b.updatedAt ≤ a.updatedAt

/-- `getSessions(botType)` (ChatManager.jsx lines 129-131): sorts the
category's array by `updatedAt` descending.  JS `sort` is stable and
mutates the array in place, so the call both returns the sorted array and
leaves it stored in the provider state. -/
def getSessions (st : ChatState) (botType : BotType) : List Session × ChatState :=
  let sorted := (st.sessions botType).mergeSort sessionBefore
  (sorted, st.setSessions botType sorted)

/-- The transient loading placeholder text of each bot component. -/
def loadingPlaceholder : BotType → String
  | .agri => "Analyzing your agricultural question..."
  | .legal => "Analyzing your legal question..."

/-- The fixed category-specific apology text of each bot component. -/
def apology : BotType → String
  | .agri => "Sorry, I encountered an error processing your agricultural question. Please try again."
  | .legal => "Sorry, I encountered an error processing your legal question. Please try again."

/-- Outcome of the backend `chat` call: a response string, or a raised
failure. -/
inductive ChatResult where
  | ok (response : String)
  | error
deriving Repr, DecidableEq

/-- `sendMessage(messages)` of the bot components (legalBot.jsx lines
34-64 and the agriculture component lines 34-71): computes the payload
`messages.slice(1).filter(msg => 'user' in msg || ('system' in msg &&
msg.system.content !== placeholder))` for the backend call; on success,
pops the loading message and pushes a system turn with the response; on
failure, pops it and pushes the apology; in both outcomes the `finally`
block clears the loading flag.  Returns (new store, isLoading, payload). -/
def sendMessage (st : ChatState) (botType : BotType) (sessionId : String)
    (messages : List Turn) (result : ChatResult) (now : Nat) :
    ChatState × Bool × List Turn :=
  let messagesToSend := (messages.drop 1).filter (fun msg =>
    msg.isUser || (msg.isSystem && msg.content != loadingPlaceholder botType))
  match result with
  | .ok response =>
      (updateSession st botType sessionId
        (messages.dropLast ++ [Turn.system response now]) now,
       false, messagesToSend)
  | .error =>
      (updateSession st botType sessionId
        (messages.dropLast ++ [Turn.system (apology botType) now]) now,
       false, messagesToSend)

/-- `handleSubmit` of the bot components (legalBot.jsx lines 66-91): no-op
when the trimmed input is empty or no current session exists; otherwise
appends a user turn and the loading placeholder via `updateSession` and
records the pending backend request (session id and the captured message
list handed to `sendMessage`). -/
def handleSubmit (st : ChatState) (botType : BotType) (inputValue : String) (now : Nat) :
    ChatState × Option (String × List Turn) :=
  if inputValue.trim == "" then (st, none)
  else
    match getCurrentSession st botType with
    | none => (st, none)
    | some currentSession =>
        let newMessages := currentSession.messages ++
          [Turn.user inputValue now, Turn.system (loadingPlaceholder botType) now]
        (updateSession st botType currentSession.id newMessages now,
         some (currentSession.id, newMessages))

/-! ### State accessor lemmas -/

@[simp]
theorem sessions_setSessions_self (st : ChatState) (bt : BotType) (l : List Session) :
    (st.setSessions bt l).sessions bt = l := by
  cases bt <;> rfl

theorem sessions_setSessions_other (st : ChatState) {bt bt' : BotType} (h : bt' ≠ bt)
    (l : List Session) : (st.setSessions bt l).sessions bt' = st.sessions bt' := by
  cases bt <;> cases bt' <;> first | rfl | exact absurd rfl h

@[simp]
theorem currentId_setSessions (st : ChatState) (bt bt' : BotType) (l : List Session) :
    (st.setSessions bt l).currentId bt' = st.currentId bt' := by
  cases bt <;> cases bt' <;> rfl

@[simp]
theorem sessions_setCurrent (st : ChatState) (bt bt' : BotType) (c : Option String) :
    (st.setCurrent bt c).sessions bt' = st.sessions bt' := by
  cases bt <;> cases bt' <;> rfl

@[simp]
theorem currentId_setCurrent_self (st : ChatState) (bt : BotType) (c : Option String) :
    (st.setCurrent bt c).currentId bt = c := by
  cases bt <;> rfl

theorem currentId_setCurrent_other (st : ChatState) {bt bt' : BotType} (h : bt' ≠ bt)
    (c : Option String) : (st.setCurrent bt c).currentId bt' = st.currentId bt' := by
  cases bt <;> cases bt' <;> first | rfl | exact absurd rfl h

theorem setSessions_sessions_self (st : ChatState) (bt : BotType) :
    st.setSessions bt (st.sessions bt) = st := by
  cases bt <;> rfl

/-! ### C1: deleteSession -/

/-- C1: for every category and sessionId, `deleteSession` leaves exactly the
sessions with a different id (in stored order); if the deleted id was the
current one, the new current pointer is the id of the last remaining
session, or none if the remaining collection is empty; otherwise the
current pointer is unchanged. -/
theorem deleteSession_spec (st : ChatState) (bt : BotType) (sid : String) :
    ((deleteSession st bt sid).sessions bt
        = (st.sessions bt).filter (fun s => s.id != sid))
    ∧ (st.currentId bt = some sid →
        (deleteSession st bt sid).currentId bt
          = ((st.sessions bt).filter (fun s => s.id != sid)).getLast?.map Session.id)
    ∧ (st.currentId bt ≠ some sid →
        (deleteSession st bt sid).currentId bt = st.currentId bt) := by
  unfold deleteSession
  by_cases h : st.currentId bt = some sid
  · simp only [h, beq_self_eq_true, if_true]
    cases hgl : ((st.sessions bt).filter (fun s => s.id != sid)).getLast? with
    | none => simp [hgl]
    | some last => simp [hgl]
  · have hbeq : (st.currentId bt == some sid) = false := by
      simpa [beq_iff_eq] using h
    simp [hbeq, h]

/-- Concrete two-session store used to exercise `deleteSession`. -/
def demoDelSt : ChatState :=
  { agriSessions :=
      [ { id := "a", title := "t", messages := [], createdAt := 0, updatedAt := 1 }
      , { id := "b", title := "t", messages := [], createdAt := 0, updatedAt := 2 } ]
    legalSessions := []
    agriCurrent := some "b"
    legalCurrent := none }

/-- Witness for C1: deleting the current session "b" from `demoDelSt` keeps
only "a" and moves the current pointer to "a". -/
theorem deleteSession_spec_witness :
    (deleteSession demoDelSt BotType.agri "b").sessions BotType.agri
      = [ { id := "a", title := "t", messages := [], createdAt := 0, updatedAt := 1 } ]
    ∧ (deleteSession demoDelSt BotType.agri "b").currentId BotType.agri = some "a" := by
  refine ⟨(deleteSession_spec demoDelSt BotType.agri "b").1.trans (by decide), ?_⟩
  exact ((deleteSession_spec demoDelSt BotType.agri "b").2.1 rfl).trans (by decide)

/-! ### C2: createNewSession -/

/-- C2: `createNewSession` appends to the category's collection a session
whose message list is exactly the one-element list holding the category
greeting as a system turn stamped now, sets it current, returns its id,
and leaves the other category's collection and pointer untouched. -/
theorem createNewSession_spec (st : ChatState) (bt : BotType) (freshId : String) (now : Nat) :
    ∃ s : Session,
      (createNewSession st bt freshId now).1.sessions bt = st.sessions bt ++ [s]
      ∧ s.messages = [Turn.system (greeting bt) now]
      ∧ s.id = freshId
      ∧ (createNewSession st bt freshId now).2 = freshId
      ∧ (createNewSession st bt freshId now).1.currentId bt = some freshId
      ∧ ∀ bt', bt' ≠ bt →
          (createNewSession st bt freshId now).1.sessions bt' = st.sessions bt'
          ∧ (createNewSession st bt freshId now).1.currentId bt' = st.currentId bt' := by
  refine ⟨{ id := freshId
            title := "Chat " ++ toString ((st.sessions bt).length + 1)
            messages := [Turn.system (greeting bt) now]
            createdAt := now
            updatedAt := now }, ?_, rfl, rfl, rfl, ?_, ?_⟩
  · simp [createNewSession]
  · simp [createNewSession]
  · intro bt' hne
    constructor
    · simp [createNewSession, sessions_setSessions_other _ hne]
    · simp [createNewSession, currentId_setCurrent_other _ hne]

/-- Witness for C2: creating an agriculture session in the empty store
stores exactly the greeting session, points at it, and leaves the legal
category empty. -/
theorem createNewSession_spec_witness :
    ((createNewSession initChatState BotType.agri "s1" 5).1.sessions BotType.agri).map
        Session.messages = [[Turn.system (greeting BotType.agri) 5]]
    ∧ (createNewSession initChatState BotType.agri "s1" 5).1.currentId BotType.agri = some "s1"
    ∧ (createNewSession initChatState BotType.agri "s1" 5).1.sessions BotType.legal = []
    ∧ (createNewSession initChatState BotType.agri "s1" 5).1.currentId BotType.legal = none := by
  obtain ⟨s, h1, h2, h3, h4, h5, h6⟩ :=
    createNewSession_spec initChatState BotType.agri "s1" 5
  refine ⟨?_, h5, ?_, ?_⟩
  · rw [h1]
    simp [initChatState, ChatState.sessions, h2]
  · exact ((h6 BotType.legal (by decide)).1).trans rfl
  · exact ((h6 BotType.legal (by decide)).2).trans rfl

/-! ### C3: updateSession -/

theorem sessions_updateSession (st : ChatState) (bt : BotType) (sid : String)
    (msgs : List Turn) (now : Nat) :
    (updateSession st bt sid msgs now).sessions bt
      = (st.sessions bt).map (fun s =>
          if s.id == sid then
            { s with messages := msgs, updatedAt := now,
                     title := generateSessionTitle msgs }
          else s) := by
  simp [updateSession]

theorem sessions_updateSession_other (st : ChatState) {bt bt' : BotType} (h : bt' ≠ bt)
    (sid : String) (msgs : List Turn) (now : Nat) :
    (updateSession st bt sid msgs now).sessions bt' = st.sessions bt' := by
  simp [updateSession, sessions_setSessions_other _ h]

theorem currentId_updateSession (st : ChatState) (bt bt' : BotType) (sid : String)
    (msgs : List Turn) (now : Nat) :
    (updateSession st bt sid msgs now).currentId bt' = st.currentId bt' := by
  simp [updateSession]

/-- After `updateSession` on the session that `getCurrentSession` resolves,
`getCurrentSession` returns that session with the new messages, the new
`updatedAt`, and the recomputed title. -/
theorem getCurrentSession_updateSession (st : ChatState) (bt : BotType) (sid : String)
    (msgs : List Turn) (now : Nat) (s0 : Session)
    (hcur : st.currentId bt = some sid)
    (hfind : (st.sessions bt).find? (fun s => s.id == sid) = some s0) :
    getCurrentSession (updateSession st bt sid msgs now) bt
      = some { s0 with messages := msgs, updatedAt := now,
                       title := generateSessionTitle msgs } := by
  have hps : (s0.id == sid) = true :=
    List.find?_some (p := fun s : Session => s.id == sid) hfind
  simp only [getCurrentSession, currentId_updateSession, hcur, sessions_updateSession]
  rw [List.find?_map]
  have hpred : ((fun s : Session => s.id == sid) ∘ (fun s : Session =>
      if s.id == sid then
        { s with messages := msgs, updatedAt := now,
                 title := generateSessionTitle msgs }
      else s)) = (fun s : Session => s.id == sid) := by
    funext s
    dsimp [Function.comp]
    split <;> rfl
  rw [hpred, hfind]
  have hid : s0.id = sid := by simpa [beq_iff_eq] using hps
  simp [hid]

/-- C3: when `sessionId` resolves, `updateMessages` replaces that session's
messages verbatim (as seen through `getCurrentSession`), sets `updatedAt`
to a value that is at least the prior one whenever the clock has not gone
backwards, and leaves sessions with other ids, the other category, and
every current pointer unchanged; when `sessionId` resolves to nothing the
call is a perfect no-op (and, being a total function, cannot throw). -/
theorem updateSession_spec (st : ChatState) (bt : BotType) (sid : String)
    (msgs : List Turn) (now : Nat) :
    (∀ s0 : Session, st.currentId bt = some sid →
       (st.sessions bt).find? (fun s => s.id == sid) = some s0 →
       (getCurrentSession (updateSession st bt sid msgs now) bt).map Session.messages
          = some msgs
       ∧ (s0.updatedAt ≤ now →
           ∀ s', getCurrentSession (updateSession st bt sid msgs now) bt = some s' →
             s0.updatedAt ≤ s'.updatedAt))
    ∧ (∀ s ∈ st.sessions bt, s.id ≠ sid →
         s ∈ (updateSession st bt sid msgs now).sessions bt)
    ∧ ((∀ s ∈ st.sessions bt, s.id ≠ sid) → updateSession st bt sid msgs now = st)
    ∧ (∀ bt', bt' ≠ bt → (updateSession st bt sid msgs now).sessions bt' = st.sessions bt')
    ∧ (∀ bt', (updateSession st bt sid msgs now).currentId bt' = st.currentId bt') := by
  refine ⟨?_, ?_, ?_, ?_, ?_⟩
  · intro s0 hcur hfind
    have h := getCurrentSession_updateSession st bt sid msgs now s0 hcur hfind
    constructor
    · rw [h]; rfl
    · intro hle s' hs'
      rw [h] at hs'
      cases Option.some.inj hs'
      exact hle
  · intro s hmem hne
    rw [sessions_updateSession]
    refine List.mem_map.mpr ⟨s, hmem, ?_⟩
    simp [hne]
  · intro hall
    have hmap : (st.sessions bt).map (fun s =>
        if s.id == sid then
          { s with messages := msgs, updatedAt := now,
                   title := generateSessionTitle msgs }
        else s) = st.sessions bt := by
      rw [List.map_congr_left (g := id), List.map_id]
      intro s hs
      simp [hall s hs]
    rw [updateSession, hmap, setSessions_sessions_self]
  · intro bt' hne
    exact sessions_updateSession_other st hne sid msgs now
  · intro bt'
    exact currentId_updateSession st bt bt' sid msgs now

/-- Concrete one-session store used to exercise `updateSession`. -/
def demoUpdSession : Session :=
  { id := "a", title := "t", messages := [Turn.system "hello" 0], createdAt := 0, updatedAt := 2 }

/-- Concrete store around `demoUpdSession`. -/
def demoUpdSt : ChatState :=
  { agriSessions := [demoUpdSession], legalSessions := [],
    agriCurrent := some "a", legalCurrent := none }

/-- Witness for C3: updating the resolved session replaces its messages
verbatim, and updating an id that matches nothing leaves the store
untouched. -/
theorem updateSession_spec_witness :
    (getCurrentSession (updateSession demoUpdSt BotType.agri "a" [Turn.user "hi" 3] 7)
        BotType.agri).map Session.messages = some [Turn.user "hi" 3]
    ∧ updateSession demoUpdSt BotType.agri "zzz" [] 9 = demoUpdSt := by
  constructor
  · exact ((updateSession_spec demoUpdSt BotType.agri "a" [Turn.user "hi" 3] 7).1
      demoUpdSession rfl (by decide)).1
  · exact (updateSession_spec demoUpdSt BotType.agri "zzz" [] 9).2.2.1 (by decide)

/-! ### C4: title derivation -/

/-- The spec's title derivation rule, step one: scan the messages in order
for the first user turn and return its content. -/
def firstUserContent : List Turn → Option String
  | [] => none
  | Turn.user c _ :: _ => some c
  | Turn.system _ _ :: rest => firstUserContent rest

/-- The spec's title derivation rule: the first user turn's content,
truncated to its first 30 characters followed by an ellipsis marker when
longer than 30 characters, else the full content; the fixed placeholder
when no user turn exists. -/
def specTitleRule (messages : List Turn) : String :=
  match firstUserContent messages with
  | some c => if c.length > 30 then c.take 30 ++ "..." else c
  | none => "New Chat"

theorem find?_isUser_content (msgs : List Turn) :
    (msgs.find? (fun m => m.isUser)).map Turn.content = firstUserContent msgs := by
  induction msgs with
  | nil => rfl
  | cons t rest ih =>
      cases t with
      | user c ts => simp [firstUserContent, Turn.isUser, Turn.content]
      | system c ts => simpa [firstUserContent, Turn.isUser] using ih

theorem generateSessionTitle_eq_specTitleRule (msgs : List Turn) :
    generateSessionTitle msgs = specTitleRule msgs := by
  unfold generateSessionTitle specTitleRule
  rw [← find?_isUser_content msgs]
  cases hf : msgs.find? (fun m => m.isUser) <;> rfl

/-- C4: after `updateMessages` on an existing session, the session's title
follows the spec's derivation rule (first user turn's content, truncated
to 30 characters plus an ellipsis marker when longer, else full content;
the fixed placeholder when no user turn exists). -/
theorem updateSession_title_spec (st : ChatState) (bt : BotType) (sid : String)
    (msgs : List Turn) (now : Nat) :
    generateSessionTitle msgs = specTitleRule msgs
    ∧ (∀ s0 ∈ st.sessions bt, s0.id = sid →
        ∃ s', s' ∈ (updateSession st bt sid msgs now).sessions bt
          ∧ s'.id = sid ∧ s'.title = specTitleRule msgs) := by
  refine ⟨generateSessionTitle_eq_specTitleRule msgs, ?_⟩
  intro s0 hmem hid
  refine ⟨{ s0 with messages := msgs, updatedAt := now,
                    title := generateSessionTitle msgs }, ?_, hid, ?_⟩
  · rw [sessions_updateSession]
    refine List.mem_map.mpr ⟨s0, hmem, ?_⟩
    simp [hid]
  · exact generateSessionTitle_eq_specTitleRule msgs

/-- A transcript whose first user turn has 31 characters. -/
def demoMsgs31 : List Turn :=
  [ Turn.system (greeting BotType.agri) 0
  , Turn.user "abcdefghijklmnopqrstuvwxyz12345" 1 ]

/-- Witness for C4: the 31-character user message yields the first 30
characters plus the ellipsis marker, also as stored by `updateSession`. -/
theorem updateSession_title_spec_witness :
    generateSessionTitle demoMsgs31 = "abcdefghijklmnopqrstuvwxyz1234..."
    ∧ ∃ s', s' ∈ (updateSession demoUpdSt BotType.agri "a" demoMsgs31 9).sessions BotType.agri
        ∧ s'.id = "a" ∧ s'.title = "abcdefghijklmnopqrstuvwxyz1234..." := by
  obtain ⟨heq, hupd⟩ := updateSession_title_spec demoUpdSt BotType.agri "a" demoMsgs31 9
  have hval : specTitleRule demoMsgs31 = "abcdefghijklmnopqrstuvwxyz1234..." := by decide
  constructor
  · exact heq.trans hval
  · obtain ⟨s', hmem, hid, ht⟩ := hupd demoUpdSession (by decide) rfl
    exact ⟨s', hmem, hid, ht.trans hval⟩

/-! ### C5: title immediately after creation -/

/-- C5 counterexample: immediately after the very first `createNewSession`
the stored title is "Chat 1", not the placeholder "New Chat" that the
claim asserts. -/
theorem createNewSession_title_counterexample :
    ((createNewSession initChatState BotType.agri "s1" 0).1.sessions BotType.agri).map
        Session.title = ["Chat 1"]
    ∧ ("Chat 1" : String) ≠ "New Chat" := by
  constructor
  · decide
  · decide

/-- C5 (amended): immediately after `createNewSession` the new session
contains no user turn, but its title is the sequential label `Chat N`
(N = previous collection length + 1) assigned directly by
`createNewSession`; the title derivation rule is not applied at creation,
although applying it to the new message list would indeed give
"New Chat". -/
theorem createNewSession_title_amended (st : ChatState) (bt : BotType)
    (freshId : String) (now : Nat) :
    ∃ s : Session,
      (createNewSession st bt freshId now).1.sessions bt = st.sessions bt ++ [s]
      ∧ (∀ m ∈ s.messages, m.isUser = false)
      ∧ s.title = "Chat " ++ toString ((st.sessions bt).length + 1)
      ∧ generateSessionTitle s.messages = "New Chat" := by
  refine ⟨{ id := freshId
            title := "Chat " ++ toString ((st.sessions bt).length + 1)
            messages := [Turn.system (greeting bt) now]
            createdAt := now
            updatedAt := now }, by simp [createNewSession], ?_, rfl, rfl⟩
  intro m hm
  simp only [List.mem_singleton] at hm
  subst hm
  rfl

/-- Witness for the amended C5, at a concrete creation in the empty
store. -/
theorem createNewSession_title_amended_witness :
    ∃ s : Session,
      (createNewSession initChatState BotType.legal "x" 3).1.sessions BotType.legal = [s]
      ∧ (∀ m ∈ s.messages, m.isUser = false)
      ∧ s.title = "Chat 1"
      ∧ generateSessionTitle s.messages = "New Chat" := by
  obtain ⟨s, h1, h2, h3, h4⟩ := createNewSession_title_amended initChatState BotType.legal "x" 3
  exact ⟨s, h1, h2, h3.trans (by decide), h4⟩

/-! ### C6: payload of the backend call -/

/-- The spec's description of the inference input, step one: drop every
system turn whose content is the category's transient loading
placeholder, keeping all other turns in order. -/
def removeLoadingPlaceholders (bt : BotType) : List Turn → List Turn
  | [] => []
  | t :: rest =>
      if t.isSystem && t.content == loadingPlaceholder bt then
        removeLoadingPlaceholders bt rest
      else t :: removeLoadingPlaceholders bt rest

/-- The spec's description of the inference input: the session's turn
history minus the initial greeting (the first turn) and minus any
transient loading placeholder. -/
def specTurnsForInference (bt : BotType) (messages : List Turn) : List Turn :=
  removeLoadingPlaceholders bt (messages.drop 1)

theorem removeLoadingPlaceholders_eq_filter (bt : BotType) (l : List Turn) :
    removeLoadingPlaceholders bt l
      = l.filter (fun t => !(t.isSystem && t.content == loadingPlaceholder bt)) := by
  induction l with
  | nil => rfl
  | cons t rest ih =>
      cases t with
      | user c ts => exact congrArg (fun l => Turn.user c ts :: l) ih
      | system c ts =>
          simp only [removeLoadingPlaceholders, List.filter_cons]
          have h1 : ((Turn.system c ts).isSystem
              && ((Turn.system c ts).content == loadingPlaceholder bt))
              = (c == loadingPlaceholder bt) := by
            simp [Turn.isSystem, Turn.content]
          rw [h1]
          cases hc : (c == loadingPlaceholder bt) with
          | false => simpa using ih
          | true => simpa using ih

theorem turn_keep_pointwise (bt : BotType) (t : Turn) :
    (t.isUser || (t.isSystem && t.content != loadingPlaceholder bt))
      = !(t.isSystem && t.content == loadingPlaceholder bt) := by
  cases t <;> simp [Turn.isUser, Turn.isSystem, Turn.content, bne]

theorem filter_eq_removeLoadingPlaceholders (bt : BotType) (l : List Turn) :
    l.filter (fun msg => msg.isUser || (msg.isSystem && msg.content != loadingPlaceholder bt))
      = removeLoadingPlaceholders bt l := by
  rw [removeLoadingPlaceholders_eq_filter]
  exact List.filter_congr (fun a _ => turn_keep_pointwise bt a)

/-- C6: for every submit, the payload handed to the backend chat call is
the submitted message list minus its first turn (the initial greeting)
and minus every system turn carrying the category's loading placeholder,
with all other turns in their original order, for both bot categories and
for both call outcomes. -/
theorem sendMessage_payload_spec (st : ChatState) (bt : BotType) (sid : String)
    (msgs : List Turn) (result : ChatResult) (now : Nat) :
    (sendMessage st bt sid msgs result now).2.2 = specTurnsForInference bt msgs := by
  cases result <;>
    simpa [sendMessage, specTurnsForInference] using
      filter_eq_removeLoadingPlaceholders bt (msgs.drop 1)

/-! ### C7: failure handling and the loading flag -/

/-- C7: when the backend call fails, the last message of the submitted
transcript is replaced by the fixed category apology system turn with all
preceding turns unchanged; and for every outcome the loading flag is
false afterwards. -/
theorem sendMessage_failure_spec (st : ChatState) (bt : BotType) (sid : String)
    (msgs : List Turn) (now : Nat) (result : ChatResult) (s0 : Session)
    (hcur : st.currentId bt = some sid)
    (hfind : (st.sessions bt).find? (fun s => s.id == sid) = some s0) :
    (getCurrentSession (sendMessage st bt sid msgs ChatResult.error now).1 bt).map
        Session.messages = some (msgs.dropLast ++ [Turn.system (apology bt) now])
    ∧ (sendMessage st bt sid msgs result now).2.1 = false := by
  constructor
  · have h := getCurrentSession_updateSession st bt sid
      (msgs.dropLast ++ [Turn.system (apology bt) now]) now s0 hcur hfind
    have hred : (sendMessage st bt sid msgs ChatResult.error now).1
        = updateSession st bt sid (msgs.dropLast ++ [Turn.system (apology bt) now]) now := rfl
    rw [hred, h]
    rfl
  · cases result <;> rfl

/-- A submitted transcript ending in the agriculture loading placeholder. -/
def demoSubmitMsgs : List Turn :=
  [ Turn.system "hello" 0, Turn.user "q" 1
  , Turn.system (loadingPlaceholder BotType.agri) 1 ]

/-- Witness for C7 at a concrete failing call: the placeholder is swapped
for the agriculture apology and the loading flag is cleared. -/
theorem sendMessage_failure_spec_witness :
    (getCurrentSession (sendMessage demoUpdSt BotType.agri "a" demoSubmitMsgs
        ChatResult.error 4).1 BotType.agri).map Session.messages
      = some [Turn.system "hello" 0, Turn.user "q" 1, Turn.system (apology BotType.agri) 4]
    ∧ (sendMessage demoUpdSt BotType.agri "a" demoSubmitMsgs (ChatResult.ok "fine") 4).2.1
        = false := by
  obtain ⟨h1, h2⟩ := sendMessage_failure_spec demoUpdSt BotType.agri "a" demoSubmitMsgs 4
    (ChatResult.ok "fine") demoUpdSession rfl (by decide)
  exact ⟨h1.trans (by decide), h2⟩

/-! ### C8: listSessions ordering -/

theorem sessionBefore_trans (a b c : Session) :
    sessionBefore a b → sessionBefore b c → sessionBefore a c := by
  simp only [sessionBefore, decide_eq_true_eq]
  omega

theorem sessionBefore_total (a b : Session) :
    sessionBefore a b || sessionBefore b a := by
  simp only [sessionBefore, Bool.or_eq_true, decide_eq_true_eq]
  omega

/-- C8: `getSessions` returns a permutation of the category's collection,
sorted by `updatedAt` descending; stable, in that any group of sessions of
pairwise equal `updatedAt` keeps its relative stored order; consequently,
after a session is updated with a timestamp strictly larger than all other
sessions' `updatedAt`, it is the head of the returned sequence. -/
theorem getSessions_spec (st : ChatState) (bt : BotType) :
    ((getSessions st bt).1.Perm (st.sessions bt))
    ∧ (getSessions st bt).1.Pairwise (fun a b => b.updatedAt ≤ a.updatedAt)
    ∧ (∀ sub : List Session, sub.Sublist (st.sessions bt) →
         (∀ a ∈ sub, ∀ b ∈ sub, a.updatedAt = b.updatedAt) →
         sub.Sublist (getSessions st bt).1)
    ∧ (∀ sid msgs now,
         (∃ s ∈ st.sessions bt, s.id = sid) →
         (∀ s ∈ st.sessions bt, s.id ≠ sid → s.updatedAt < now) →
         ((getSessions (updateSession st bt sid msgs now) bt).1.head?).map Session.id
           = some sid) := by
  refine ⟨?_, ?_, ?_, ?_⟩
  · exact List.mergeSort_perm (st.sessions bt) sessionBefore
  · exact (List.sorted_mergeSort sessionBefore_trans sessionBefore_total
      (st.sessions bt)).imp (fun h => by simpa [sessionBefore] using h)
  · intro sub hsub heq
    refine List.sublist_mergeSort sessionBefore_trans sessionBefore_total ?_ hsub
    refine List.pairwise_of_forall_mem_list ?_
    intro a ha b hb
    simp only [sessionBefore, decide_eq_true_eq]
    exact (heq a ha b hb).symm.le
  · intro sid msgs now hex hothers
    obtain ⟨s, hs, hsid⟩ := hex
    set L := (updateSession st bt sid msgs now).sessions bt with hL
    have hLmap : L = (st.sessions bt).map (fun s =>
        if s.id == sid then
          { s with messages := msgs, updatedAt := now,
                   title := generateSessionTitle msgs }
        else s) := sessions_updateSession st bt sid msgs now
    -- the updated session is in the new collection with updatedAt = now
    have hu : ∃ u ∈ L, u.id = sid ∧ u.updatedAt = now := by
      refine ⟨{ s with messages := msgs, updatedAt := now,
                       title := generateSessionTitle msgs }, ?_, hsid, rfl⟩
      rw [hLmap]
      exact List.mem_map.mpr ⟨s, hs, by simp [hsid]⟩
    -- every session in the new collection with a different id is strictly older
    have hother : ∀ x ∈ L, x.id ≠ sid → x.updatedAt < now := by
      rw [hLmap]
      intro x hx hne
      obtain ⟨s', hs', hfx⟩ := List.mem_map.mp hx
      by_cases h' : s'.id = sid
      · rw [← hfx] at hne
        simp [h'] at hne
      · have hxe : x = s' := by rw [← hfx]; simp [h']
        rw [hxe]
        exact hothers s' hs' h'
    obtain ⟨u, huL, huid, hunow⟩ := hu
    have husort : u ∈ (getSessions (updateSession st bt sid msgs now) bt).1 := by
      simpa [getSessions] using huL
    have hpw : (getSessions (updateSession st bt sid msgs now) bt).1.Pairwise
        (fun a b => sessionBefore a b) :=
      List.sorted_mergeSort sessionBefore_trans sessionBefore_total _
    cases hsorted : (getSessions (updateSession st bt sid msgs now) bt).1 with
    | nil => rw [hsorted] at husort; cases husort
    | cons h t =>
        have hh : h ∈ L := by
          have : h ∈ (getSessions (updateSession st bt sid msgs now) bt).1 := by
            rw [hsorted]; exact List.mem_cons_self h t
          simpa [getSessions] using this
        have hht : ∀ y ∈ t, y.updatedAt ≤ h.updatedAt := by
          have hpw' : (h :: t).Pairwise (fun a b => sessionBefore a b) := by
            rw [hsorted] at hpw
            exact hpw
          intro y hy
          have := List.rel_of_pairwise_cons hpw' hy
          simpa [sessionBefore] using this
        have hhid : h.id = sid := by
          rw [hsorted] at husort
          rcases List.mem_cons.mp husort with heq | hmem
          · rw [← heq]; exact huid
          · by_contra hne
            have h1 : h.updatedAt < now := hother h hh hne
            have h2 : now ≤ h.updatedAt := by
              have := hht u hmem
              omega
            omega
        simp [hhid]

/-- Concrete two-session store used to exercise `getSessions`. -/
def demoSortSt : ChatState :=
  { agriSessions :=
      [ { id := "a", title := "t", messages := [], createdAt := 0, updatedAt := 1 }
      , { id := "b", title := "t", messages := [], createdAt := 0, updatedAt := 4 } ]
    legalSessions := []
    agriCurrent := some "a"
    legalCurrent := none }

/-- Witness for C8: after updating the older session "a" with a fresh
timestamp, it is returned first by `getSessions`. -/
theorem getSessions_spec_witness :
    ((getSessions (updateSession demoSortSt BotType.agri "a" [] 9) BotType.agri).1.head?).map
        Session.id = some "a" := by
  refine (getSessions_spec demoSortSt BotType.agri).2.2.2 "a" [] 9 ?_ ?_
  · exact ⟨{ id := "a", title := "t", messages := [], createdAt := 0, updatedAt := 1 },
      by decide, rfl⟩
  · decide

/-! ### C10: getSessions sorts the stored array in place -/

/-- Session "a": inserted first, least recently updated. -/
def sessA : Session := { id := "a", title := "t", messages := [], createdAt := 0, updatedAt := 1 }

/-- Session "b": inserted second, most recently updated. -/
def sessB : Session := { id := "b", title := "t", messages := [], createdAt := 0, updatedAt := 4 }

/-- Session "c": inserted third and current, updated in between. -/
def sessC : Session := { id := "c", title := "t", messages := [], createdAt := 0, updatedAt := 3 }

/-- Store holding "a", "b", "c" in insertion order with "c" current. -/
def demoC10St : ChatState :=
  { agriSessions := [sessA, sessB, sessC]
    legalSessions := []
    agriCurrent := some "c"
    legalCurrent := none }

/-- C10: `getSessions` is not a pure read: afterwards the stored collection
equals the returned `updatedAt`-descending array.  Concretely, on the
store ["a","b","c"] (updatedAt 1, 4, 3, "c" current), a `getSessions`
call reorders the store to ["b","c","a"], so deleting the current session
"c" then picks "a" — the least recently updated survivor — as the new
current session, whereas without the `getSessions` call it picks the most
recently inserted survivor "b". -/
theorem getSessions_frame_spec :
    (∀ (st : ChatState) (bt : BotType),
        ((getSessions st bt).2).sessions bt = (getSessions st bt).1
        ∧ (((getSessions st bt).2).sessions bt).Pairwise
            (fun a b => b.updatedAt ≤ a.updatedAt)
        ∧ (((getSessions st bt).2).sessions bt).Perm (st.sessions bt))
    ∧ ((getSessions demoC10St BotType.agri).2).sessions BotType.agri = [sessB, sessC, sessA]
    ∧ (deleteSession ((getSessions demoC10St BotType.agri).2) BotType.agri "c").currentId
        BotType.agri = some "a"
    ∧ (deleteSession demoC10St BotType.agri "c").currentId BotType.agri = some "b"
    ∧ sessA.updatedAt < sessB.updatedAt := by
  have hsort : List.mergeSort [sessA, sessB, sessC] sessionBefore = [sessB, sessC, sessA] := by
    simp [List.mergeSort, List.merge, sessionBefore, sessA, sessB, sessC]
  have hstate : (getSessions demoC10St BotType.agri).2
      = demoC10St.setSessions BotType.agri [sessB, sessC, sessA] := by
    simp only [getSessions]
    rw [show List.mergeSort (demoC10St.sessions BotType.agri) sessionBefore
      = [sessB, sessC, sessA] from hsort]
  refine ⟨?_, ?_, ?_, ?_, ?_⟩
  · intro st bt
    refine ⟨by simp [getSessions], ?_, ?_⟩
    · simp only [getSessions, sessions_setSessions_self]
      exact (List.sorted_mergeSort sessionBefore_trans sessionBefore_total
        (st.sessions bt)).imp (fun h => by simpa [sessionBefore] using h)
    · simp only [getSessions, sessions_setSessions_self]
      exact List.mergeSort_perm (st.sessions bt) sessionBefore
  · rw [hstate]
    decide
  · rw [hstate]
    decide
  · decide
  · decide

/-! ### C9: the greeting-head invariant of reachable states -/

/-- Whole-system state: the provider store plus, per category, the pending
backend request (session id and captured message list) of an in-flight
`sendMessage`, if any.  The input control is disabled while a request is
pending, so at most one request per category is outstanding. -/
structure SysState where
  chat : ChatState
  agriPend : Option (String × List Turn)
  legalPend : Option (String × List Turn)

/-- The pending request of a category. -/
def SysState.pend (s : SysState) : BotType → Option (String × List Turn)
  | .agri => s.agriPend
  | .legal => s.legalPend

/-- Replace the pending request of a category. -/
def SysState.setPend (s : SysState) : BotType → Option (String × List Turn) → SysState
  | .agri, p => { s with agriPend := p }
  | .legal, p => { s with legalPend := p }

/-- Initial system state: empty store, no pending request. -/
def initSysState : SysState :=
  { chat := initChatState, agriPend := none, legalPend := none }

/-- One step of the system, as invoked by the UI code: creating a session
(mount effect or the new-chat buttons), switching, deleting, listing (the
history panel, which sorts in place), submitting (only while no request
of that category is pending, since the input is disabled), and resolving
a pending backend call with either outcome. -/
inductive Step : SysState → SysState → Prop where
  | create (s : SysState) (bt : BotType) (freshId : String) (now : Nat) :
      Step s { s with chat := (createNewSession s.chat bt freshId now).1 }
  | switch (s : SysState) (bt : BotType) (sid : String) :
      Step s { s with chat := switchToSession s.chat bt sid }
  | delete (s : SysState) (bt : BotType) (sid : String) :
      Step s { s with chat := deleteSession s.chat bt sid }
  | history (s : SysState) (bt : BotType) :
      Step s { s with chat := (getSessions s.chat bt).2 }
  | submit (s : SysState) (bt : BotType) (input : String) (now : Nat) :
      s.pend bt = none →
      Step s { (s.setPend bt (handleSubmit s.chat bt input now).2) with
               chat := (handleSubmit s.chat bt input now).1 }
  | resolve (s : SysState) (bt : BotType) (sid : String) (msgs : List Turn)
      (result : ChatResult) (now : Nat) :
      s.pend bt = some (sid, msgs) →
      Step s { (s.setPend bt none) with
               chat := (sendMessage s.chat bt sid msgs result now).1 }

/-- States reachable from the initial system state. -/
inductive Reachable : SysState → Prop where
  | init : Reachable initSysState
  | step {s t : SysState} : Reachable s → Step s t → Reachable t

/-- A message list whose first entry is the category greeting system turn
(seeded at some creation time). -/
def GoodMsgs (bt : BotType) (msgs : List Turn) : Prop :=
  ∃ t0, msgs.head? = some (Turn.system (greeting bt) t0)

/-- Inductive invariant: every stored session's message list starts with
the category greeting, and so does every pending captured transcript,
which moreover has at least two entries. -/
def SysInv (s : SysState) : Prop :=
  ∀ bt : BotType,
    (∀ sess ∈ s.chat.sessions bt, GoodMsgs bt sess.messages)
    ∧ (∀ sid msgs, s.pend bt = some (sid, msgs) → 2 ≤ msgs.length ∧ GoodMsgs bt msgs)

theorem goodMsgs_ne_nil {bt : BotType} {msgs : List Turn} (h : GoodMsgs bt msgs) :
    msgs ≠ [] := by
  obtain ⟨t0, h⟩ := h
  cases msgs with
  | nil => cases h
  | cons a r => simp

theorem goodMsgs_append {bt : BotType} {msgs : List Turn} (l : List Turn)
    (h : GoodMsgs bt msgs) : GoodMsgs bt (msgs ++ l) := by
  obtain ⟨t0, hh⟩ := h
  cases msgs with
  | nil => cases hh
  | cons a r =>
      simp only [List.head?_cons, Option.some.injEq] at hh
      exact ⟨t0, by simp [hh]⟩

theorem goodMsgs_length_append {bt : BotType} {msgs : List Turn}
    (h : GoodMsgs bt msgs) (x y : Turn) : 2 ≤ (msgs ++ [x, y]).length := by
  have := goodMsgs_ne_nil h
  cases msgs with
  | nil => simp at this
  | cons a r => simp only [List.cons_append, List.length_cons, List.length_append, List.length_nil]; omega

theorem goodMsgs_dropLast_append {bt : BotType} {msgs : List Turn} (x : Turn)
    (h2 : 2 ≤ msgs.length) (h : GoodMsgs bt msgs) :
    GoodMsgs bt (msgs.dropLast ++ [x]) := by
  obtain ⟨t0, hh⟩ := h
  cases msgs with
  | nil => cases hh
  | cons a r =>
      cases r with
      | nil => simp at h2
      | cons b r' =>
          simp only [List.head?_cons, Option.some.injEq] at hh
          exact ⟨t0, by simp [hh]⟩

theorem pend_chatUpdate (s : SysState) (c : ChatState) (bt : BotType) :
    SysState.pend { s with chat := c } bt = s.pend bt := by
  cases bt <;> rfl

theorem pend_setPend_self (s : SysState) (bt : BotType) (p : Option (String × List Turn)) :
    (s.setPend bt p).pend bt = p := by
  cases bt <;> rfl

theorem pend_setPend_other (s : SysState) {bt bt' : BotType} (h : bt' ≠ bt)
    (p : Option (String × List Turn)) : (s.setPend bt p).pend bt' = s.pend bt' := by
  cases bt <;> cases bt' <;> first | rfl | exact absurd rfl h

theorem sessions_createNewSession (st : ChatState) (bt : BotType) (freshId : String)
    (now : Nat) :
    (createNewSession st bt freshId now).1.sessions bt
      = st.sessions bt ++
        [{ id := freshId
           title := "Chat " ++ toString ((st.sessions bt).length + 1)
           messages := [Turn.system (greeting bt) now]
           createdAt := now
           updatedAt := now }] := by
  simp [createNewSession]

theorem sessions_createNewSession_other (st : ChatState) {bt bt' : BotType} (h : bt' ≠ bt)
    (freshId : String) (now : Nat) :
    (createNewSession st bt freshId now).1.sessions bt' = st.sessions bt' := by
  simp [createNewSession, sessions_setSessions_other _ h]

theorem sessions_switchToSession (st : ChatState) (bt bt' : BotType) (sid : String) :
    (switchToSession st bt sid).sessions bt' = st.sessions bt' := by
  simp [switchToSession]

theorem sessions_deleteSession (st : ChatState) (bt : BotType) (sid : String) :
    (deleteSession st bt sid).sessions bt
      = (st.sessions bt).filter (fun s => s.id != sid) := by
  unfold deleteSession
  by_cases h : st.currentId bt = some sid
  · simp only [h, beq_self_eq_true, if_true]
    cases hgl : ((st.sessions bt).filter (fun s => s.id != sid)).getLast? with
    | none => simp [hgl]
    | some last => simp [hgl]
  · have hbeq : (st.currentId bt == some sid) = false := by
      simpa [beq_iff_eq] using h
    simp [hbeq]

theorem sessions_deleteSession_other (st : ChatState) {bt bt' : BotType} (h : bt' ≠ bt)
    (sid : String) : (deleteSession st bt sid).sessions bt' = st.sessions bt' := by
  unfold deleteSession
  by_cases hc : st.currentId bt = some sid
  · simp only [hc, beq_self_eq_true, if_true]
    cases hgl : ((st.sessions bt).filter (fun s => s.id != sid)).getLast? with
    | none => simp [hgl, sessions_setSessions_other _ h]
    | some last => simp [hgl, sessions_setSessions_other _ h]
  · have hbeq : (st.currentId bt == some sid) = false := by
      simpa [beq_iff_eq] using hc
    simp [hbeq, sessions_setSessions_other _ h]

theorem sessions_getSessions_snd (st : ChatState) (bt : BotType) :
    ((getSessions st bt).2).sessions bt = (st.sessions bt).mergeSort sessionBefore := by
  simp [getSessions]

theorem sessions_getSessions_snd_other (st : ChatState) {bt bt' : BotType} (h : bt' ≠ bt) :
    ((getSessions st bt).2).sessions bt' = st.sessions bt' := by
  simp [getSessions, sessions_setSessions_other _ h]

theorem mem_of_getCurrentSession {st : ChatState} {bt : BotType} {cs : Session}
    (h : getCurrentSession st bt = some cs) : cs ∈ st.sessions bt := by
  unfold getCurrentSession at h
  cases hcur : st.currentId bt with
  | none => rw [hcur] at h; cases h
  | some sid =>
      rw [hcur] at h
      exact List.mem_of_find?_eq_some h

theorem handleSubmit_cases (st : ChatState) (bt : BotType) (input : String) (now : Nat) :
    (handleSubmit st bt input now = (st, none))
    ∨ ∃ cs : Session, getCurrentSession st bt = some cs
        ∧ handleSubmit st bt input now
          = (updateSession st bt cs.id
              (cs.messages ++ [Turn.user input now,
                Turn.system (loadingPlaceholder bt) now]) now,
             some (cs.id, cs.messages ++ [Turn.user input now,
                Turn.system (loadingPlaceholder bt) now])) := by
  unfold handleSubmit
  by_cases h : (input.trim == "") = true
  · rw [if_pos h]
    exact Or.inl rfl
  · rw [if_neg h]
    cases hc : getCurrentSession st bt with
    | none => exact Or.inl rfl
    | some cs => exact Or.inr ⟨cs, rfl, rfl⟩

theorem sendMessage_fst (st : ChatState) (bt : BotType) (sid : String) (msgs : List Turn)
    (result : ChatResult) (now : Nat) :
    (sendMessage st bt sid msgs result now).1
      = updateSession st bt sid
          (msgs.dropLast ++ [Turn.system (match result with
            | ChatResult.ok r => r
            | ChatResult.error => apology bt) now]) now := by
  cases result <;> rfl

theorem inv_sessions_updateSession {st : ChatState} {bt bt' : BotType}
    {sid : String} {m : List Turn} {now : Nat}
    (hall : ∀ sess ∈ st.sessions bt', GoodMsgs bt' sess.messages)
    (hm : GoodMsgs bt m) :
    ∀ sess ∈ (updateSession st bt sid m now).sessions bt', GoodMsgs bt' sess.messages := by
  intro sess hmem
  by_cases hbt : bt' = bt
  · subst hbt
    rw [sessions_updateSession] at hmem
    obtain ⟨s0, hs0, hfx⟩ := List.mem_map.mp hmem
    cases hid : (s0.id == sid) with
    | true =>
        rw [← hfx]
        simp only [hid, if_true]
        exact hm
    | false =>
        rw [← hfx]
        simp only [hid]
        simpa using hall s0 hs0
  · rw [sessions_updateSession_other st hbt] at hmem
    exact hall sess hmem

theorem sysInv_init : SysInv initSysState := by
  intro bt
  constructor
  · intro sess hmem
    cases bt <;> simp [initSysState, initChatState, ChatState.sessions] at hmem
  · intro sid msgs hp
    cases bt <;> simp [initSysState, SysState.pend] at hp

theorem sysInv_step {s t : SysState} (hinv : SysInv s) (hstep : Step s t) : SysInv t := by
  cases hstep with
  | create bt freshId now =>
      intro bt'
      obtain ⟨hsess, hpend⟩ := hinv bt'
      constructor
      · intro sess hmem
        dsimp only at hmem
        by_cases hbt : bt' = bt
        · subst hbt
          rw [sessions_createNewSession] at hmem
          rcases List.mem_append.mp hmem with h | h
          · exact hsess sess h
          · rw [List.mem_singleton] at h
            subst h
            exact ⟨now, rfl⟩
        · rw [sessions_createNewSession_other s.chat hbt] at hmem
          exact hsess sess hmem
      · intro sid msgs hp
        rw [pend_chatUpdate] at hp
        exact hpend sid msgs hp
  | switch bt sid =>
      intro bt'
      obtain ⟨hsess, hpend⟩ := hinv bt'
      constructor
      · intro sess hmem
        dsimp only at hmem
        rw [sessions_switchToSession] at hmem
        exact hsess sess hmem
      · intro sid' msgs hp
        rw [pend_chatUpdate] at hp
        exact hpend sid' msgs hp
  | delete bt sid =>
      intro bt'
      obtain ⟨hsess, hpend⟩ := hinv bt'
      constructor
      · intro sess hmem
        dsimp only at hmem
        by_cases hbt : bt' = bt
        · subst hbt
          rw [sessions_deleteSession] at hmem
          exact hsess sess (List.mem_of_mem_filter hmem)
        · rw [sessions_deleteSession_other s.chat hbt] at hmem
          exact hsess sess hmem
      · intro sid' msgs hp
        rw [pend_chatUpdate] at hp
        exact hpend sid' msgs hp
  | history bt =>
      intro bt'
      obtain ⟨hsess, hpend⟩ := hinv bt'
      constructor
      · intro sess hmem
        dsimp only at hmem
        by_cases hbt : bt' = bt
        · subst hbt
          rw [sessions_getSessions_snd] at hmem
          exact hsess sess (List.mem_mergeSort.mp hmem)
        · rw [sessions_getSessions_snd_other s.chat hbt] at hmem
          exact hsess sess hmem
      · intro sid' msgs hp
        rw [pend_chatUpdate] at hp
        exact hpend sid' msgs hp
  | submit bt input now hnone =>
      rcases handleSubmit_cases s.chat bt input now with hcase | ⟨cs, hcs, hcase⟩
      · intro bt'
        obtain ⟨hsess, hpend⟩ := hinv bt'
        constructor
        · intro sess hmem
          dsimp only at hmem
          rw [hcase] at hmem
          exact hsess sess hmem
        · intro sid' msgs hp
          rw [pend_chatUpdate] at hp
          by_cases hbt : bt' = bt
          · subst hbt
            rw [pend_setPend_self, hcase] at hp
            cases hp
          · rw [pend_setPend_other _ hbt] at hp
            exact hpend sid' msgs hp
      · have hcsmem := mem_of_getCurrentSession hcs
        have hgood : GoodMsgs bt cs.messages := (hinv bt).1 cs hcsmem
        have hm : GoodMsgs bt (cs.messages ++ [Turn.user input now,
            Turn.system (loadingPlaceholder bt) now]) :=
          goodMsgs_append _ hgood
        have hlen : 2 ≤ (cs.messages ++ [Turn.user input now,
            Turn.system (loadingPlaceholder bt) now]).length :=
          goodMsgs_length_append hgood _ _
        intro bt'
        obtain ⟨hsess, hpend⟩ := hinv bt'
        constructor
        · intro sess hmem
          dsimp only at hmem
          rw [hcase] at hmem
          exact inv_sessions_updateSession hsess hm sess hmem
        · intro sid' msgs hp
          rw [pend_chatUpdate] at hp
          by_cases hbt : bt' = bt
          · subst hbt
            rw [pend_setPend_self, hcase] at hp
            dsimp only at hp
            cases Option.some.inj hp
            exact ⟨hlen, hm⟩
          · rw [pend_setPend_other _ hbt] at hp
            exact hpend sid' msgs hp
  | resolve bt sid msgs result now hp0 =>
      obtain ⟨hlen, hgood⟩ := (hinv bt).2 sid msgs hp0
      have hm : GoodMsgs bt (msgs.dropLast ++ [Turn.system (match result with
          | ChatResult.ok r => r
          | ChatResult.error => apology bt) now]) :=
        goodMsgs_dropLast_append _ hlen hgood
      intro bt'
      obtain ⟨hsess, hpend⟩ := hinv bt'
      constructor
      · intro sess hmem
        dsimp only at hmem
        rw [sendMessage_fst] at hmem
        exact inv_sessions_updateSession hsess hm sess hmem
      · intro sid' msgs' hp
        rw [pend_chatUpdate] at hp
        by_cases hbt : bt' = bt
        · subst hbt
          rw [pend_setPend_self] at hp
          cases hp
        · rw [pend_setPend_other _ hbt] at hp
          exact hpend sid' msgs' hp

theorem sysInv_reachable {s : SysState} (hr : Reachable s) : SysInv s := by
  induction hr with
  | init => exact sysInv_init
  | step hr hstep ih => exact sysInv_step ih hstep

/-- C9: in every system state reachable from the initial empty store via
the operations as the UI invokes them (session creation seeding the
greeting, the adapters' submit and response flows, switching, deleting,
and the in-place-sorting history listing), every existing session's
message list is non-empty and its first entry is the category's greeting
system turn seeded at creation time. -/
theorem reachable_sessions_greeting (s : SysState) (hr : Reachable s) :
    ∀ bt : BotType, ∀ sess ∈ s.chat.sessions bt,
      sess.messages ≠ []
      ∧ ∃ t0, sess.messages.head? = some (Turn.system (greeting bt) t0) := by
  intro bt sess hmem
  have h := (sysInv_reachable hr bt).1 sess hmem
  exact ⟨goodMsgs_ne_nil h, h⟩

/-- A concrete reachable state: one agriculture session created at time 0. -/
def demoReachState : SysState :=
  { chat := (createNewSession initChatState BotType.agri "s1" 0).1
    agriPend := none
    legalPend := none }

/-- The session stored in `demoReachState`. -/
def demoReachSession : Session :=
  { id := "s1", title := "Chat 1"
    messages := [Turn.system (greeting BotType.agri) 0]
    createdAt := 0, updatedAt := 0 }

/-- Witness for C9, at the concrete reachable state with one session. -/
theorem reachable_sessions_greeting_witness :
    demoReachSession.messages ≠ []
    ∧ ∃ t0, demoReachSession.messages.head?
        = some (Turn.system (greeting BotType.agri) t0) := by
  have hr : Reachable demoReachState :=
    Reachable.step Reachable.init (Step.create initSysState BotType.agri "s1" 0)
  exact reachable_sessions_greeting demoReachState hr BotType.agri demoReachSession (by decide)
